import Mathlib

/-!
Verification development for the tech-events CRUD service.

The embedding models the event service layer of the repository:
field validation (app/schemas/event.py), the MongoDB-backed store
operations of EventService (app/services/event_service.py): create,
list with filters and pagination, get-by-id, partial update, and
soft delete.

Modelling choices:
* A MongoDB collection is a list of documents in insertion order;
  find_one returns the first match, insert_one appends, update_one
  rewrites the first matching document.
* BSON datetimes are UTC instants, modelled as Int.  A Python
  datetime before storage is a wall-clock value plus an optional
  UTC-offset (PyDateTime below); pymongo stores the UTC instant.
* Document payload fields are Option-valued: an update request may
  explicitly set a field to null (EventUpdate fields are nullable in
  the source), and a $set with null stores a BSON null.
* HTTPException outcomes are modelled by the business-level error
  taxonomy of the design: Conflict (duplicate active title/date,
  HTTP 400), InvalidIdentifier (malformed ObjectId, HTTP 400 with a
  distinct detail message), NotFound (HTTP 404).
-/

namespace TechEvents

/-- Business-level error taxonomy raised by EventService via
HTTPException: Conflict (duplicate title/date), InvalidIdentifier
(malformed ObjectId string), NotFound (no matching active document). -/
inductive Err where
  | conflict
  | invalidIdentifier
  | notFound
deriving DecidableEq

/-- Hexadecimal digit test, as used by bson.ObjectId validation. -/
def isHexDigit (c : Char) : Bool :=
  c.isDigit || (('a' ≤ c) && (c ≤ 'f')) || (('A' ≤ c) && (c ≤ 'F'))

/-- Models bson.ObjectId.is_valid on a string argument: a well-formed
store identifier is a 24-character hexadecimal string. -/
def objectIdIsValid (s : String) : Bool :=
  (s.length == 24) && s.data.all isHexDigit

/-- A Python datetime as it reaches the schema validators: a naive
wall-clock value (an Int, in abstract time units) together with an
optional UTC offset; tz = none is a naive datetime. -/
structure PyDateTime where
  naive : Int
  tz : Option Int
deriving DecidableEq

/-- Models the tzinfo-is-None branch of date_not_in_past: a naive
datetime is reinterpreted as UTC (replace tzinfo=UTC). -/
def PyDateTime.assumeUTC (d : PyDateTime) : PyDateTime :=
  match d.tz with
  | none => ⟨d.naive, some 0⟩
  | some _ => d

/-- The absolute UTC instant denoted by a datetime; a missing offset
counts as zero (only applied after assumeUTC in the validators). -/
def PyDateTime.utcInstant (d : PyDateTime) : Int :=
  d.naive - d.tz.getD 0

/-- Models the date_not_in_past field validator shared by EventCreate
and EventUpdate: naive datetimes are assumed UTC, and the value is
rejected exactly when it is strictly before the current UTC time
(passed in as the parameter now). -/
def date_not_in_past (now : Int) (v : PyDateTime) : Option PyDateTime :=
  let v2 := v.assumeUTC
  if v2.utcInstant < now then none else some v2

/-- Whitespace characters removed by Python str.strip (ASCII range). -/
def isPyWhitespace (c : Char) : Bool :=
  (c == ' ') || (c == '\t') || (c == '\n') || (c == '\r') ||
  (c == '\x0b') || (c == '\x0c')

/-- Models Python str.strip(): remove leading and trailing whitespace. -/
def pyStrip (s : String) : String :=
  ⟨((s.data.dropWhile isPyWhitespace).reverse.dropWhile isPyWhitespace).reverse⟩

/-- Models str.lower() on the ASCII range (Char.toLower lowercases
ASCII letters, which covers the tag alphabet used by the service). -/
def pyLower (s : String) : String :=
  ⟨s.data.map Char.toLower⟩

/-- Models the validate_tags field validator shared by EventCreate and
EventUpdate: keep tags that are non-empty after stripping, strip and
lowercase them, then deduplicate via set semantics (list(set(...));
the model uses List.dedup as one representative of the unspecified
set iteration order). -/
def validate_tags (v : List String) : List String :=
  ((v.filter (fun tag => pyStrip tag != "")).map
    (fun tag => pyLower (pyStrip tag))).dedup

/-- Modelled from the spec: the organizer field uses pydantic EmailStr,
whose syntax check lives in the external email-validator package (not
part of this repository).  Abstracted as: exactly one at-sign, with a
non-empty local part and a non-empty domain that contains a dot and
neither starts nor ends with one. -/
def validEmail (s : String) : Bool :=
  let cs := s.data
  (cs.count '@' == 1) &&
  (let lhs := cs.takeWhile (fun c => c != '@')
   let dom := (cs.dropWhile (fun c => c != '@')).drop 1
   (!lhs.isEmpty) && (!dom.isEmpty) && dom.contains '.' &&
   (dom.head? != some '.') && (dom.getLast? != some '.'))

/-- The raw EventCreate payload (app/schemas/event.py): all fields
required; date still carries its timezone annotation. -/
structure EventCreate where
  title : String
  description : String
  date : PyDateTime
  location : String
  organizer : String
  tags : List String
  capacity : Int
deriving DecidableEq

/-- An EventCreate that passed pydantic validation: field constraints
hold, the date is normalized to its UTC instant, tags are cleaned. -/
structure ValidEvent where
  title : String
  description : String
  date : Int
  location : String
  organizer : String
  tags : List String
  capacity : Int
deriving DecidableEq

/-- Models pydantic validation of EventCreate: Field constraints
(title and location non-empty and at most 200 characters, description
non-empty, capacity strictly positive), EmailStr on organizer, and
the date_not_in_past and validate_tags field validators. -/
def EventCreate.run_validators (now : Int) (e : EventCreate) : Option ValidEvent :=
  if decide (1 ≤ e.title.length) && decide (e.title.length ≤ 200) &&
     decide (1 ≤ e.description.length) &&
     decide (1 ≤ e.location.length) && decide (e.location.length ≤ 200) &&
     validEmail e.organizer &&
     decide (0 < e.capacity) &&
     (!(e.date.assumeUTC.utcInstant < now))
  then some { title := e.title, description := e.description,
              date := e.date.assumeUTC.utcInstant, location := e.location,
              organizer := e.organizer, tags := validate_tags e.tags,
              capacity := e.capacity }
  else none

/-- The raw EventUpdate payload (app/schemas/event.py): every field
optional.  The outer Option is field presence (model_dump with
exclude_unset distinguishes an absent field from one supplied), the
inner Option is an explicit null value. -/
structure EventUpdate where
  title : Option (Option String)
  description : Option (Option String)
  date : Option (Option PyDateTime)
  location : Option (Option String)
  organizer : Option (Option String)
  tags : Option (Option (List String))
  capacity : Option (Option Int)
  is_active : Option (Option Bool)
deriving DecidableEq

/-- An EventUpdate that passed pydantic validation, dates normalized
to UTC instants and tags cleaned.  This is what model_dump with
exclude_unset=True exposes to the service. -/
structure ValidUpdate where
  title : Option (Option String)
  description : Option (Option String)
  date : Option (Option Int)
  location : Option (Option String)
  organizer : Option (Option String)
  tags : Option (Option (List String))
  capacity : Option (Option Int)
  is_active : Option (Option Bool)
deriving DecidableEq

/-- A field constraint on an optional field: pydantic applies the
constraint only when the field is supplied with a non-null value
(None always passes an optional field's checks). -/
def checkOpt {α : Type} (f : Option (Option α)) (p : α → Bool) : Bool :=
  match f with
  | some (some x) => p x
  | _ => true

/-- Models pydantic validation of EventUpdate: each supplied non-null
field is checked by the same rules as on create; supplied null values
pass unchecked; the date and tags validators normalize supplied
values exactly as on create. -/
def EventUpdate.run_validators (now : Int) (u : EventUpdate) : Option ValidUpdate :=
  if checkOpt u.title (fun s => decide (1 ≤ s.length) && decide (s.length ≤ 200)) &&
     checkOpt u.description (fun s => decide (1 ≤ s.length)) &&
     checkOpt u.location (fun s => decide (1 ≤ s.length) && decide (s.length ≤ 200)) &&
     checkOpt u.organizer validEmail &&
     checkOpt u.capacity (fun c => decide (0 < c)) &&
     checkOpt u.date (fun d => !(d.assumeUTC.utcInstant < now))
  then some { title := u.title, description := u.description,
              date := u.date.map (Option.map (fun d => d.assumeUTC.utcInstant)),
              location := u.location, organizer := u.organizer,
              tags := u.tags.map (Option.map validate_tags),
              capacity := u.capacity, is_active := u.is_active }
  else none

/-- A stored event document.  oid is the ObjectId hex string; payload
fields are Option-valued because a BSON field set to null by an
update is observably different from its original value; created_at
and updated_at are always written by the service. -/
structure Doc where
  oid : String
  title : Option String
  description : Option String
  date : Option Int
  location : Option String
  organizer : Option String
  tags : Option (List String)
  capacity : Option Int
  is_active : Option Bool
  created_at : Int
  updated_at : Int
deriving DecidableEq

/-- The events collection, in insertion order. -/
abbrev Store := List Doc

/-- MongoDB enforces uniqueness of _id through the mandatory index:
no two documents of the collection share an oid. -/
def UniqueIds (store : Store) : Prop :=
  List.Pairwise (fun a b => a.oid ≠ b.oid) store

/-- Models update_one on the first matching document of a collection. -/
def updateFirst (p : Doc → Bool) (f : Doc → Doc) : Store → Store
  | [] => []
  | d :: ds => if p d then f d :: ds else d :: updateFirst p f ds

/-- Models find_one({"_id": oid, "is_active": True}). -/
def findActive (store : Store) (event_id : String) : Option Doc :=
  store.find? (fun d => (d.oid == event_id) && (d.is_active == some true))

/-- Models find_one({"title": t, "date": dt, "is_active": True}), the
duplicate probe of create_event. -/
def findDup (store : Store) (t : String) (dt : Int) : Option Doc :=
  store.find? (fun d =>
    (d.title == some t) && (d.date == some dt) && (d.is_active == some true))

/-- Models the duplicate probe of update_event, which additionally
excludes the record being updated via an _id not-equal clause; the
effective title and date may be null when the update supplied null. -/
def findDupOther (store : Store) (event_id : String)
    (t : Option String) (dt : Option Int) : Option Doc :=
  store.find? (fun d =>
    (d.title == t) && (d.date == dt) && (d.is_active == some true) &&
    (d.oid != event_id))

/-- The document insert_one stores for a validated create payload:
is_active is forced true and both timestamps are set to now. -/
def mkDoc (e : ValidEvent) (newOid : String) (now : Int) : Doc :=
  { oid := newOid, title := some e.title, description := some e.description,
    date := some e.date, location := some e.location,
    organizer := some e.organizer, tags := some e.tags,
    capacity := some e.capacity, is_active := some true,
    created_at := now, updated_at := now }

/-- Models EventService.create_event on a validated payload: probe for
an active document with the same title and date; on a hit raise
Conflict leaving the collection untouched; otherwise insert the new
document (insert_one appends; the trailing find_one({"_id": ...})
returns exactly the inserted document since the service-assigned oid
is fresh under the _id index) and return it. -/
def create_event (store : Store) (e : ValidEvent) (newOid : String)
    (now : Int) : Store × Except Err Doc :=
  if (findDup store e.title e.date).isSome then
    (store, .error .conflict)
  else
    (store ++ [mkDoc e newOid now], .ok (mkDoc e newOid now))

/-- Query predicate built by EventService.get_events: always restricts
to active documents; a supplied bound adds a $gte / $lte range clause
on date (a null date matches no numeric comparison, per BSON type
bracketing); a supplied non-empty tag list (the Python code skips the
clause for a falsy empty list) adds a lowercase $in clause that an
array field matches when it contains one of the listed values. -/
def matchesQuery (date_from date_to : Option Int) (tags : Option (List String))
    (d : Doc) : Bool :=
  (d.is_active == some true) &&
  (match date_from with
   | some f => match d.date with
               | some x => decide (f ≤ x)
               | none => false
   | none => true) &&
  (match date_to with
   | some t => match d.date with
               | some x => decide (x ≤ t)
               | none => false
   | none => true) &&
  (match tags with
   | some ts =>
       if ts.isEmpty then true
       else match d.tags with
            | some l => l.any (fun x => (ts.map pyLower).contains x)
            | none => false
   | none => true)

/-- Ascending BSON order on the date field, nulls first (null sorts
before numeric values in BSON). -/
def dateLE (a b : Option Int) : Bool :=
  match a, b with
  | none, _ => true
  | some _, none => false
  | some x, some y => decide (x ≤ y)

/-- Sort relation of the fixed sort("date", 1) of get_events. -/
def docLE (a b : Doc) : Prop := dateLE a.date b.date = true

instance : DecidableRel docLE :=
  fun a b => inferInstanceAs (Decidable (dateLE a.date b.date = true))

/-- Models the cursor sort("date", 1): a stable sort of the matching
documents ascending by date. -/
def sortByDate (l : List Doc) : List Doc := List.insertionSort docLE l

/-- Models EventService.get_events: build the filter, count the
matching documents for the total (independent of pagination), then
return the window of size limit after skipping (page - 1) * limit
documents of the date-sorted matching set. -/
def get_events (store : Store) (page limit : Nat)
    (date_from date_to : Option Int) (tags : Option (List String)) :
    List Doc × Nat :=
  let q := matchesQuery date_from date_to tags
  let matching := store.filter q
  let total := matching.length
  let skip := (page - 1) * limit
  (((sortByDate matching).drop skip).take limit, total)

/-- Models EventService.get_event_by_id: reject a malformed ObjectId
string, then look up the first active document with that id; a miss
is NotFound. -/
def get_event_by_id (store : Store) (event_id : String) : Except Err Doc :=
  if !(objectIdIsValid event_id) then .error .invalidIdentifier
  else
    match findActive store event_id with
    | none => .error .notFound
    | some d => .ok d

/-- The update payload is empty when model_dump(exclude_unset=True)
yields an empty dict: no field of the request was supplied. -/
def ValidUpdate.isEmpty (u : ValidUpdate) : Bool :=
  u.title.isNone && u.description.isNone && u.date.isNone &&
  u.location.isNone && u.organizer.isNone && u.tags.isNone &&
  u.capacity.isNone && u.is_active.isNone

/-- The $set document of update_event applied to a stored document:
each supplied field overwrites the stored one (a supplied null
overwrites with null), absent fields are untouched, and updated_at is
always set to now. -/
def applySet (u : ValidUpdate) (now : Int) (d : Doc) : Doc :=
  { d with
    title := u.title.getD d.title,
    description := u.description.getD d.description,
    date := u.date.getD d.date,
    location := u.location.getD d.location,
    organizer := u.organizer.getD d.organizer,
    tags := u.tags.getD d.tags,
    capacity := u.capacity.getD d.capacity,
    is_active := u.is_active.getD d.is_active,
    updated_at := now }

/-- Models EventService.update_event on a validated payload: reject a
malformed id; require an active document with that id (else
NotFound); an empty payload returns the current document with no
write; if title or date is among the supplied fields, compute the
effective pair (falling back to the stored values for fields not
supplied) and probe for a different active document carrying it,
raising Conflict on a hit; otherwise $set the supplied fields plus
updated_at on the document (update_one targets the _id filter) and
return the re-fetched document (the fallback of the final getD is
unreachable: the collection still holds a document with that oid). -/
def update_event (store : Store) (event_id : String) (u : ValidUpdate)
    (now : Int) : Store × Except Err Doc :=
  if !(objectIdIsValid event_id) then (store, .error .invalidIdentifier)
  else
    match findActive store event_id with
    | none => (store, .error .notFound)
    | some existing =>
      if u.isEmpty then (store, .ok existing)
      else
        if (u.title.isSome || u.date.isSome) &&
           (findDupOther store event_id (u.title.getD existing.title)
             (u.date.getD existing.date)).isSome then
          (store, .error .conflict)
        else
          let store2 := updateFirst (fun d => d.oid == event_id)
            (applySet u now) store
          (store2,
           .ok ((store2.find? (fun d => d.oid == event_id)).getD
                 (applySet u now existing)))

/-- Models EventService.delete_event: reject a malformed id, then
issue the conditional update_one({"_id": oid, "is_active": True},
{"$set": {"is_active": False, "updated_at": now}}); a modified count
of zero (no active document with that id) is NotFound. -/
def delete_event (store : Store) (event_id : String) (now : Int) :
    Store × Except Err Bool :=
  if !(objectIdIsValid event_id) then (store, .error .invalidIdentifier)
  else
    match findActive store event_id with
    | none => (store, .error .notFound)
    | some _ =>
      (updateFirst (fun d => (d.oid == event_id) && (d.is_active == some true))
        (fun d => { d with is_active := some false, updated_at := now }) store,
       .ok true)

/-- The ValidUpdate of a request that supplied no field at all. -/
def emptyUpdate : ValidUpdate :=
  { title := none, description := none, date := none, location := none,
    organizer := none, tags := none, capacity := none, is_active := none }

/-! ### Helper lemmas about the store probes -/

theorem findDup_isSome_iff (store : Store) (t : String) (dt : Int) :
    (findDup store t dt).isSome ↔
      ∃ d ∈ store, d.title = some t ∧ d.date = some dt ∧
        d.is_active = some true := by
  simp [findDup, List.find?_isSome, and_assoc]

theorem findDupOther_isSome_iff (store : Store) (event_id : String)
    (t : Option String) (dt : Option Int) :
    (findDupOther store event_id t dt).isSome ↔
      ∃ d ∈ store, d.title = t ∧ d.date = dt ∧ d.is_active = some true ∧
        d.oid ≠ event_id := by
  simp [findDupOther, List.find?_isSome, and_assoc]

theorem findActive_eq_none_iff (store : Store) (event_id : String) :
    findActive store event_id = none ↔
      ∀ d ∈ store, ¬ (d.oid = event_id ∧ d.is_active = some true) := by
  simp [findActive, List.find?_eq_none, not_and]

theorem findActive_spec (store : Store) (event_id : String) (d : Doc)
    (h : findActive store event_id = some d) :
    d ∈ store ∧ d.oid = event_id ∧ d.is_active = some true := by
  have hm := List.mem_of_find?_eq_some h
  have hp := List.find?_some h
  simp only [Bool.and_eq_true, beq_iff_eq] at hp
  exact ⟨hm, hp.1, hp.2⟩

theorem assumeUTC_utcInstant (d : PyDateTime) :
    d.assumeUTC.utcInstant = d.naive - d.tz.getD 0 := by
  cases h : d.tz <;>
    simp [PyDateTime.assumeUTC, PyDateTime.utcInstant, h]

theorem find?_split {p : Doc → Bool} {store : Store} {d0 : Doc}
    (h : store.find? p = some d0) :
    ∃ l1 l2, store = l1 ++ d0 :: l2 ∧ (∀ x ∈ l1, p x = false) ∧
      p d0 = true := by
  induction store with
  | nil => simp at h
  | cons d ds ih =>
    by_cases hp : p d = true
    · rw [List.find?_cons_of_pos _ hp] at h
      obtain rfl := Option.some.inj h
      exact ⟨[], ds, rfl, by simp, hp⟩
    · rw [List.find?_cons_of_neg _ hp] at h
      obtain ⟨l1, l2, heq, hall, hp0⟩ := ih h
      refine ⟨d :: l1, l2, by rw [heq]; rfl, ?_, hp0⟩
      intro x hx
      rcases List.mem_cons.mp hx with rfl | hx2
      · simpa using hp
      · exact hall x hx2

theorem updateFirst_append (p : Doc → Bool) (f : Doc → Doc)
    (l1 l2 : List Doc) (d0 : Doc)
    (h1 : ∀ x ∈ l1, p x = false) (h0 : p d0 = true) :
    updateFirst p f (l1 ++ d0 :: l2) = l1 ++ f d0 :: l2 := by
  induction l1 with
  | nil => simp [updateFirst, h0]
  | cons d ds ih =>
    have hd : p d = false := h1 d (by simp)
    simp [updateFirst, hd, ih (fun x hx => h1 x (by simp [hx]))]

theorem find?_append_first (p : Doc → Bool) (l1 l2 : List Doc) (d0 : Doc)
    (h1 : ∀ x ∈ l1, p x = false) (h0 : p d0 = true) :
    (l1 ++ d0 :: l2).find? p = some d0 := by
  induction l1 with
  | nil => simpa using List.find?_cons_of_pos l2 h0
  | cons d ds ih =>
    have hd : p d = false := h1 d (by simp)
    rw [List.cons_append, List.find?_cons_of_neg _ (by simp [hd])]
    exact ih (fun x hx => h1 x (by simp [hx]))

theorem uniqueIds_ne_of_split {l1 l2 : List Doc} {d0 : Doc}
    (hu : UniqueIds (l1 ++ d0 :: l2)) :
    (∀ x ∈ l1, x.oid ≠ d0.oid) ∧ (∀ x ∈ l2, x.oid ≠ d0.oid) := by
  rw [UniqueIds, List.pairwise_append] at hu
  obtain ⟨_, h2, h12⟩ := hu
  rw [List.pairwise_cons] at h2
  exact ⟨fun x hx => h12 x hx d0 (by simp),
         fun x hx => (h2.1 x hx).symm⟩

theorem findActive_of_mem {store : Store} {event_id : String} {d0 : Doc}
    (hu : UniqueIds store) (hmem : d0 ∈ store) (hoid : d0.oid = event_id)
    (hact : d0.is_active = some true) :
    findActive store event_id = some d0 := by
  induction store with
  | nil => cases hmem
  | cons d ds ih =>
    rcases List.mem_cons.mp hmem with rfl | hmem2
    · exact List.find?_cons_of_pos _ (by simp [hoid, hact])
    · have hne : d.oid ≠ event_id := by
        rw [← hoid]
        exact (List.pairwise_cons.mp hu).1 d0 hmem2
      have hrec := ih (List.pairwise_cons.mp hu).2 hmem2
      unfold findActive
      rw [List.find?_cons_of_neg _ (by simp [hne])]
      exact hrec

theorem matchesQuery_active {f t : Option Int} {tg : Option (List String)}
    {d : Doc} (h : matchesQuery f t tg d = true) :
    d.is_active = some true := by
  simp only [matchesQuery, Bool.and_eq_true, beq_iff_eq] at h
  exact h.1.1.1

theorem mem_get_events {store : Store} {page limit : Nat} {f t : Option Int}
    {tg : Option (List String)} {d : Doc}
    (h : d ∈ (get_events store page limit f t tg).1) :
    d ∈ store ∧ matchesQuery f t tg d = true := by
  simp only [get_events, sortByDate] at h
  have h1 := List.mem_of_mem_drop (List.mem_of_mem_take h)
  have h2 : d ∈ store.filter (matchesQuery f t tg) :=
    ((List.perm_insertionSort docLE _).mem_iff).mp h1
  have h3 := List.mem_filter.mp h2
  exact ⟨h3.1, h3.2⟩

instance : IsTotal Doc docLE :=
  ⟨by
    intro a b
    unfold docLE dateLE
    cases a.date <;> cases b.date <;> simp <;> omega⟩

instance : IsTrans Doc docLE :=
  ⟨by
    intro a b c
    unfold docLE dateLE
    cases a.date <;> cases b.date <;> cases c.date <;> simp <;> omega⟩

theorem isEmpty_fields {u : ValidUpdate} (h : u.isEmpty = true) :
    u.title = none ∧ u.description = none ∧ u.date = none ∧
    u.location = none ∧ u.organizer = none ∧ u.tags = none ∧
    u.capacity = none ∧ u.is_active = none := by
  simp only [ValidUpdate.isEmpty, Bool.and_eq_true,
    Option.isNone_iff_eq_none] at h
  tauto

theorem checkOpt_spec {α : Type} {f : Option (Option α)} {p : α → Bool}
    (h : checkOpt f p = true) : ∀ x, f = some (some x) → p x = true := by
  intro x hx
  rw [hx] at h
  exact h

theorem update_event_success_shape (store : Store) (event_id : String)
    (u : ValidUpdate) (now : Int) (existing : Doc)
    (hu : UniqueIds store)
    (hid : objectIdIsValid event_id = true)
    (hfind : findActive store event_id = some existing)
    (hne : u.isEmpty = false)
    (hnodup : ((u.title.isSome || u.date.isSome) &&
        (findDupOther store event_id (u.title.getD existing.title)
          (u.date.getD existing.date)).isSome) = false) :
    ∃ l1 l2, store = l1 ++ existing :: l2 ∧
      (∀ x ∈ l1, x.oid ≠ event_id) ∧ (∀ x ∈ l2, x.oid ≠ event_id) ∧
      update_event store event_id u now =
        (l1 ++ applySet u now existing :: l2,
         .ok (applySet u now existing)) := by
  have hoid : existing.oid = event_id :=
    (findActive_spec store event_id existing hfind).2.1
  obtain ⟨l1, l2, heq, hall, hp0⟩ := find?_split
    (p := fun d => (d.oid == event_id) && (d.is_active == some true)) hfind
  subst heq
  obtain ⟨hu1, hu2⟩ := uniqueIds_ne_of_split hu
  have hne1 : ∀ x ∈ l1, x.oid ≠ event_id := fun x hx => hoid ▸ hu1 x hx
  have hne2 : ∀ x ∈ l2, x.oid ≠ event_id := fun x hx => hoid ▸ hu2 x hx
  have hstep : updateFirst (fun d => d.oid == event_id) (applySet u now)
      (l1 ++ existing :: l2) = l1 ++ applySet u now existing :: l2 :=
    updateFirst_append _ _ l1 l2 existing
      (fun x hx => beq_eq_false_iff_ne.mpr (hne1 x hx)) (by simp [hoid])
  have hagain : (l1 ++ applySet u now existing :: l2).find?
      (fun d => d.oid == event_id) = some (applySet u now existing) :=
    find?_append_first _ l1 l2 _
      (fun x hx => beq_eq_false_iff_ne.mpr (hne1 x hx))
      (by simp [applySet, hoid])
  refine ⟨l1, l2, rfl, hne1, hne2, ?_⟩
  simp only [update_event, hid, Bool.not_true, Bool.false_eq_true, if_false,
    hfind, hne, hnodup, hstep, hagain, Option.getD_some]

theorem delete_event_success_shape (store : Store) (event_id : String)
    (now : Int) (existing : Doc)
    (hu : UniqueIds store) (hid : objectIdIsValid event_id = true)
    (hfind : findActive store event_id = some existing) :
    ∃ l1 l2, store = l1 ++ existing :: l2 ∧
      (∀ x ∈ l1, x.oid ≠ event_id) ∧ (∀ x ∈ l2, x.oid ≠ event_id) ∧
      delete_event store event_id now =
        (l1 ++ { existing with
                   is_active := some false,
                   updated_at := now } :: l2,
         .ok true) := by
  have hoid : existing.oid = event_id :=
    (findActive_spec store event_id existing hfind).2.1
  obtain ⟨l1, l2, heq, hall, hp0⟩ := find?_split
    (p := fun d => (d.oid == event_id) && (d.is_active == some true)) hfind
  subst heq
  obtain ⟨hu1, hu2⟩ := uniqueIds_ne_of_split hu
  have hstep := updateFirst_append
    (fun d => (d.oid == event_id) && (d.is_active == some true))
    (fun d => { d with is_active := some false, updated_at := now })
    l1 l2 existing hall hp0
  refine ⟨l1, l2, rfl, fun x hx => hoid ▸ hu1 x hx,
    fun x hx => hoid ▸ hu2 x hx, ?_⟩
  simp only [delete_event, hid, Bool.not_true, Bool.false_eq_true, if_false,
    hfind, hstep]

/-! ### Claim theorems -/

/-- C1: for every create candidate, if an active event with the same
title and date already exists in the store, create fails with
Conflict and the store is unchanged; otherwise create assigns an id,
sets created_at and updated_at, sets is_active true, persists the
document, and returns the stored entity. -/
theorem create_event_conflict_or_persists (store : Store) (e : ValidEvent)
    (newOid : String) (now : Int) :
    match create_event store e newOid now with
    | (store2, .error err) =>
        err = .conflict ∧ store2 = store ∧
        ∃ d ∈ store, d.title = some e.title ∧ d.date = some e.date ∧
          d.is_active = some true
    | (store2, .ok doc) =>
        (¬ ∃ d ∈ store, d.title = some e.title ∧ d.date = some e.date ∧
          d.is_active = some true) ∧
        store2 = store ++ [doc] ∧ doc ∈ store2 ∧
        doc.oid = newOid ∧ doc.is_active = some true ∧
        doc.created_at = now ∧ doc.updated_at = now ∧
        doc.title = some e.title ∧ doc.description = some e.description ∧
        doc.date = some e.date ∧ doc.location = some e.location ∧
        doc.organizer = some e.organizer ∧ doc.tags = some e.tags ∧
        doc.capacity = some e.capacity := by
  by_cases h : (findDup store e.title e.date).isSome
  · have hex := (findDup_isSome_iff store e.title e.date).mp h
    simp only [create_event, h, if_true]
    exact ⟨trivial, trivial, hex⟩
  · have hex : ¬ ∃ d ∈ store, d.title = some e.title ∧ d.date = some e.date ∧
        d.is_active = some true :=
      fun hc => h ((findDup_isSome_iff store e.title e.date).mpr hc)
    simp only [create_event, h, if_false]
    refine ⟨hex, by simp, by simp, by simp [mkDoc], by simp [mkDoc],
      by simp [mkDoc], by simp [mkDoc], by simp [mkDoc], by simp [mkDoc],
      by simp [mkDoc], by simp [mkDoc], by simp [mkDoc], by simp [mkDoc],
      by simp [mkDoc]⟩

/-- C5: get_by_id fails with InvalidIdentifier when the id string is
not a well-formed store identifier, and with NotFound when it is
well-formed but no active event has that id; the two failures are
distinct outcomes, and update and delete discriminate malformed ids
the same way. -/
theorem id_validation_discrimination (store : Store) (event_id : String)
    (u : ValidUpdate) (now : Int) :
    (objectIdIsValid event_id = false →
       get_event_by_id store event_id = .error .invalidIdentifier ∧
       update_event store event_id u now = (store, .error .invalidIdentifier) ∧
       delete_event store event_id now = (store, .error .invalidIdentifier)) ∧
    (objectIdIsValid event_id = true →
       (∀ d ∈ store, ¬ (d.oid = event_id ∧ d.is_active = some true)) →
       get_event_by_id store event_id = .error .notFound) ∧
    Err.invalidIdentifier ≠ Err.notFound := by
  refine ⟨?_, ?_, by decide⟩
  · intro h
    exact ⟨by simp [get_event_by_id, h], by simp [update_event, h],
           by simp [delete_event, h]⟩
  · intro h habs
    have hnone : findActive store event_id = none :=
      (findActive_eq_none_iff store event_id).mpr habs
    simp [get_event_by_id, h, hnone]

/-- C5 witness: a malformed id is rejected as InvalidIdentifier while
a well-formed id absent from the store yields NotFound. -/
theorem id_validation_discrimination_witness :
    get_event_by_id ([] : Store) "not-an-id" = .error .invalidIdentifier ∧
    get_event_by_id ([] : Store) "507f1f77bcf86cd799439011" =
      .error .notFound :=
  ⟨((id_validation_discrimination [] "not-an-id" emptyUpdate 0).1
      (by decide)).1,
   (id_validation_discrimination [] "507f1f77bcf86cd799439011" emptyUpdate 0).2.1
      (by decide) (by simp)⟩

/-- C7: the date validator treats a value lacking a timezone as UTC
and fails exactly when the UTC-normalized value is strictly earlier
than the current UTC time; in particular create validation fails on a
date earlier than the current UTC time regardless of the timezone
annotation on the input. -/
theorem date_validation_utc (now : Int) (v : PyDateTime) :
    (date_not_in_past now v = none ↔ v.naive - v.tz.getD 0 < now) ∧
    (∀ e : EventCreate, e.date.naive - e.date.tz.getD 0 < now →
       EventCreate.run_validators now e = none) := by
  constructor
  · rw [show date_not_in_past now v =
        if v.assumeUTC.utcInstant < now then none else some v.assumeUTC
        from rfl, assumeUTC_utcInstant v]
    by_cases h : v.naive - v.tz.getD 0 < now
    · simp [h]
    · simp [h]
  · intro e hlt
    have hd : decide (e.date.assumeUTC.utcInstant < now) = true := by
      rw [assumeUTC_utcInstant]; exact decide_eq_true hlt
    simp [EventCreate.run_validators, hd]

/-- C7 witness: a datetime one unit in the past, annotated with a
nonzero offset, still fails create validation. -/
theorem date_validation_utc_witness :
    (⟨4, some 5⟩ : PyDateTime).naive - (⟨4, some 5⟩ : PyDateTime).tz.getD 0 < 0 ∧
    EventCreate.run_validators 0
      { title := "t", description := "d", date := ⟨4, some 5⟩,
        location := "l", organizer := "a@b.c", tags := [],
        capacity := 1 } = none :=
  ⟨by decide,
   (date_validation_utc 0 ⟨4, some 5⟩).2
     { title := "t", description := "d", date := ⟨4, some 5⟩,
       location := "l", organizer := "a@b.c", tags := [],
       capacity := 1 } (by decide)⟩

/-- C8: tag validation trims each tag, drops those empty after
trimming, lowercases the rest, and deduplicates to set semantics; on
the concrete input of the spec the result is the set containing
exactly python and ai. -/
theorem validate_tags_set_semantics (l : List String) :
    (validate_tags l).Nodup ∧
    (∀ s, s ∈ validate_tags l ↔
       ∃ t ∈ l, pyStrip t ≠ "" ∧ pyLower (pyStrip t) = s) ∧
    validate_tags ["Python", " python ", "AI"] = ["python", "ai"] := by
  refine ⟨List.nodup_dedup _, ?_, by decide⟩
  intro s
  simp only [validate_tags, List.mem_dedup, List.mem_map, List.mem_filter,
    bne_iff_ne, ne_eq]
  constructor
  · rintro ⟨t, ⟨ht, hne⟩, hs⟩
    exact ⟨t, ht, hne, hs⟩
  · rintro ⟨t, ht, hne, hs⟩
    exact ⟨t, ⟨ht, hne⟩, hs⟩

/-! ### Concrete sample data for witnesses -/

def oidA : String := "aaaaaaaaaaaaaaaaaaaaaaaa"

def oidB : String := "bbbbbbbbbbbbbbbbbbbbbbbb"

def docA : Doc :=
  { oid := oidA, title := some "x", description := some "dx",
    date := some 1, location := some "lx", organizer := some "a@b.c",
    tags := some ["python"], capacity := some 10, is_active := some true,
    created_at := 0, updated_at := 0 }

def docB : Doc :=
  { oid := oidB, title := some "y", description := some "dy",
    date := some 2, location := some "ly", organizer := some "b@c.d",
    tags := some ["ai"], capacity := some 20, is_active := some true,
    created_at := 0, updated_at := 0 }

def sampleStore : Store := [docA, docB]

/-- A payload supplying only is_active. -/
def setActive (b : Bool) : ValidUpdate :=
  { emptyUpdate with is_active := some (some b) }

/-- A payload retitling an event onto the title and date of docB. -/
def retitleUpdate : ValidUpdate :=
  { emptyUpdate with title := some (some "y"), date := some (some 2) }

/-- A payload supplying only capacity. -/
def capacityUpdate : ValidUpdate :=
  { emptyUpdate with capacity := some (some 99) }

/-- A raw update request supplying only a title. -/
def titleOnlyRaw : EventUpdate :=
  { title := some (some "Valid"), description := none, date := none,
    location := none, organizer := none, tags := none, capacity := none,
    is_active := none }

/-- The validated form of titleOnlyRaw. -/
def titleOnlyValid : ValidUpdate :=
  { emptyUpdate with title := some (some "Valid") }

/-- C2: delete flips is_active to false and bumps updated_at exactly
when a record with the id is currently active, failing NotFound
otherwise; after a successful delete, get_by_id fails NotFound and
list excludes the event, but the record remains in storage with
is_active false. -/
theorem delete_event_soft_delete (store : Store) (event_id : String)
    (now : Int)
    (hid : objectIdIsValid event_id = true) (hu : UniqueIds store) :
    ((∀ d ∈ store, ¬ (d.oid = event_id ∧ d.is_active = some true)) →
       delete_event store event_id now = (store, .error .notFound)) ∧
    (∀ d0 ∈ store, d0.oid = event_id → d0.is_active = some true →
       ∃ store2, delete_event store event_id now = (store2, .ok true) ∧
         (∃ d2 ∈ store2, d2.oid = event_id ∧ d2.is_active = some false ∧
            d2.updated_at = now ∧ d2.created_at = d0.created_at ∧
            d2.title = d0.title ∧ d2.date = d0.date) ∧
         (∀ d ∈ store, d.oid ≠ event_id → d ∈ store2) ∧
         get_event_by_id store2 event_id = .error .notFound ∧
         (∀ page limit f t tg,
            ∀ d ∈ (get_events store2 page limit f t tg).1,
              d.oid ≠ event_id)) := by
  constructor
  · intro habs
    have hnone := (findActive_eq_none_iff store event_id).mpr habs
    simp [delete_event, hid, hnone]
  · intro d0 hmem hoid hact
    have hfind := findActive_of_mem hu hmem hoid hact
    obtain ⟨l1, l2, heq, h1, h2, hdel⟩ :=
      delete_event_success_shape store event_id now d0 hu hid hfind
    refine ⟨_, hdel, ?_, ?_, ?_, ?_⟩
    · exact ⟨{ d0 with is_active := some false, updated_at := now },
        by simp, hoid, rfl, rfl, rfl, rfl, rfl⟩
    · intro d hd hne
      rw [heq] at hd
      rcases List.mem_append.mp hd with h | h
      · simp [h]
      · rcases List.mem_cons.mp h with rfl | h
        · exact absurd hoid hne
        · simp [h]
    · have hnone : findActive
          (l1 ++ { d0 with
                     is_active := some false,
                     updated_at := now } :: l2) event_id = none := by
        rw [findActive, List.find?_eq_none]
        intro x hx
        rcases List.mem_append.mp hx with h | h
        · simp [beq_eq_false_iff_ne.mpr (h1 x h)]
        · rcases List.mem_cons.mp h with rfl | h
          · simp
          · simp [beq_eq_false_iff_ne.mpr (h2 x h)]
      simp [get_event_by_id, hid, hnone]
    · intro page limit f t tg d hd he
      obtain ⟨hmem2, hq⟩ := mem_get_events hd
      have hactv := matchesQuery_active hq
      rcases List.mem_append.mp hmem2 with h | h
      · exact h1 d h he
      · rcases List.mem_cons.mp h with rfl | h
        · simp at hactv
        · exact h2 d h he

/-- C2 witness: deleting from an empty store is NotFound; deleting an
active sample event succeeds and the id then resolves to NotFound. -/
theorem delete_event_soft_delete_witness :
    delete_event ([] : Store) oidA 7 = ([], .error .notFound) ∧
    ∃ store2, delete_event sampleStore oidA 7 = (store2, .ok true) ∧
      get_event_by_id store2 oidA = .error .notFound := by
  constructor
  · exact (delete_event_soft_delete [] oidA 7 (by decide)
      (by simp [UniqueIds])).1 (by simp)
  · obtain ⟨store2, hrun, -, -, hget, -⟩ :=
      (delete_event_soft_delete sampleStore oidA 7 (by decide)
        (by simp [UniqueIds, sampleStore, docA, docB, oidA, oidB])).2
        docA (by simp [sampleStore]) rfl rfl
    exact ⟨store2, hrun, hget⟩

/-- C3: when the payload supplies title or date, update recomputes the
effective pair by falling back to stored values for the field not
supplied and fails Conflict exactly when some other active event has
that pair; a payload supplying neither title nor date never fails
Conflict. -/
theorem update_uniqueness_check (store : Store) (event_id : String)
    (u : ValidUpdate) (now : Int) :
    ((u.title = none ∧ u.date = none) →
       (update_event store event_id u now).2 ≠ .error .conflict) ∧
    (∀ existing, objectIdIsValid event_id = true →
       findActive store event_id = some existing →
       (u.title.isSome = true ∨ u.date.isSome = true) →
       ((update_event store event_id u now).2 = .error .conflict ↔
         ∃ d ∈ store, d.oid ≠ event_id ∧ d.is_active = some true ∧
           d.title = u.title.getD existing.title ∧
           d.date = u.date.getD existing.date)) := by
  constructor
  · rintro ⟨ht, hd⟩
    by_cases hid : objectIdIsValid event_id = true
    · cases hfind : findActive store event_id with
      | none => simp [update_event, hid, hfind]
      | some ex =>
        by_cases hemp : u.isEmpty = true
        · simp [update_event, hid, hfind, hemp]
        · have hcond : (u.title.isSome || u.date.isSome) = false := by
            simp [ht, hd]
          simp [update_event, hid, hfind, hemp, hcond]
    · have hid' : objectIdIsValid event_id = false := by simpa using hid
      simp [update_event, hid']
  · intro existing hid hfind htouch
    have hne : u.isEmpty = false := by
      rcases htouch with h | h
      · rcases Option.isSome_iff_exists.mp h with ⟨x, hx⟩
        simp [ValidUpdate.isEmpty, hx]
      · rcases Option.isSome_iff_exists.mp h with ⟨x, hx⟩
        simp [ValidUpdate.isEmpty, hx]
    have hcond : (u.title.isSome || u.date.isSome) = true := by
      rcases htouch with h | h
      · simp [h]
      · simp [h]
    by_cases hdup : (findDupOther store event_id (u.title.getD existing.title)
        (u.date.getD existing.date)).isSome = true
    · constructor
      · intro _
        obtain ⟨d, hdm, h1', h2', h3', h4'⟩ :=
          (findDupOther_isSome_iff store event_id _ _).mp hdup
        exact ⟨d, hdm, h4', h3', h1', h2'⟩
      · intro _
        simp [update_event, hid, hfind, hne, hcond, hdup]
    · have hdup' : (findDupOther store event_id (u.title.getD existing.title)
          (u.date.getD existing.date)).isSome = false := by simpa using hdup
      constructor
      · intro hC
        exfalso
        simp [update_event, hid, hfind, hne, hcond, hdup'] at hC
      · rintro ⟨d, hdm, h1', h2', h3', h4'⟩
        exact absurd ((findDupOther_isSome_iff store event_id _ _).mpr
          ⟨d, hdm, h3', h4', h2', h1'⟩) (by simpa using hdup)

/-- C3 witness: retitling docA onto the title and date of docB fails
with Conflict, while a capacity-only update never does. -/
theorem update_uniqueness_check_witness :
    (update_event sampleStore oidA retitleUpdate 5).2 = .error .conflict ∧
    (update_event sampleStore oidA capacityUpdate 5).2 ≠ .error .conflict := by
  constructor
  · exact ((update_uniqueness_check sampleStore oidA retitleUpdate 5).2 docA
      (by decide) (by decide) (Or.inl rfl)).mpr
      ⟨docB, by simp [sampleStore], by decide, rfl, rfl, rfl⟩
  · exact (update_uniqueness_check sampleStore oidA capacityUpdate 5).1
      ⟨rfl, rfl⟩

/-- C4: update validation applies the create-time field rules to
every supplied non-null field of the payload (a null value of an
optional field passes, matching the nullable pydantic fields); a
successful update leaves fields absent from the payload untouched in
the stored entity, while every supplied field value (including an
explicit null) is written, so absence and explicit null are
distinguished. -/
theorem update_validation_and_frame :
    (∀ now : Int, ∀ e : EventUpdate, ∀ v : ValidUpdate,
       EventUpdate.run_validators now e = some v →
       ((∀ s, e.title = some (some s) → 1 ≤ s.length ∧ s.length ≤ 200) ∧
        (∀ s, e.description = some (some s) → 1 ≤ s.length) ∧
        (∀ s, e.location = some (some s) → 1 ≤ s.length ∧ s.length ≤ 200) ∧
        (∀ s, e.organizer = some (some s) → validEmail s = true) ∧
        (∀ c, e.capacity = some (some c) → 0 < c) ∧
        (∀ d, e.date = some (some d) → ¬ (d.naive - d.tz.getD 0 < now)) ∧
        v.tags = e.tags.map (Option.map validate_tags) ∧
        v.title = e.title ∧ v.description = e.description ∧
        v.location = e.location ∧ v.organizer = e.organizer ∧
        v.capacity = e.capacity ∧ v.is_active = e.is_active)) ∧
    (∀ store event_id u now existing store2 doc,
       UniqueIds store →
       findActive store event_id = some existing →
       update_event store event_id u now = (store2, .ok doc) →
       ((u.title = none → doc.title = existing.title) ∧
        (∀ x, u.title = some x → doc.title = x) ∧
        (u.description = none → doc.description = existing.description) ∧
        (∀ x, u.description = some x → doc.description = x) ∧
        (u.date = none → doc.date = existing.date) ∧
        (∀ x, u.date = some x → doc.date = x) ∧
        (u.location = none → doc.location = existing.location) ∧
        (∀ x, u.location = some x → doc.location = x) ∧
        (u.organizer = none → doc.organizer = existing.organizer) ∧
        (∀ x, u.organizer = some x → doc.organizer = x) ∧
        (u.tags = none → doc.tags = existing.tags) ∧
        (∀ x, u.tags = some x → doc.tags = x) ∧
        (u.capacity = none → doc.capacity = existing.capacity) ∧
        (∀ x, u.capacity = some x → doc.capacity = x))) := by
  constructor
  · intro now e v hv
    unfold EventUpdate.run_validators at hv
    split at hv
    case isTrue hcond =>
      obtain rfl := Option.some.inj hv
      simp only [Bool.and_eq_true] at hcond
      obtain ⟨⟨⟨⟨⟨hT, hD⟩, hL⟩, hO⟩, hC⟩, hDt⟩ := hcond
      refine ⟨?_, ?_, ?_, ?_, ?_, ?_, rfl, rfl, rfl, rfl, rfl, rfl, rfl⟩
      · intro s hs
        have h := checkOpt_spec hT s hs
        simp only [Bool.and_eq_true, decide_eq_true_eq] at h
        exact h
      · intro s hs
        have h := checkOpt_spec hD s hs
        simpa using h
      · intro s hs
        have h := checkOpt_spec hL s hs
        simp only [Bool.and_eq_true, decide_eq_true_eq] at h
        exact h
      · intro s hs
        exact checkOpt_spec hO s hs
      · intro c hc
        have h := checkOpt_spec hC c hc
        simpa using h
      · intro d hd
        have h := checkOpt_spec hDt d hd
        rw [Bool.not_eq_true', decide_eq_false_iff_not] at h
        rw [← assumeUTC_utcInstant]
        exact h
    case isFalse => cases hv
  · intro store event_id u now existing store2 doc hu hfind hupd
    by_cases hid : objectIdIsValid event_id = true
    · by_cases hemp : u.isEmpty = true
      · have hdoc : doc = existing := by
          simp [update_event, hid, hfind, hemp, Prod.ext_iff] at hupd
          exact hupd.2.symm
        obtain ⟨hfl1, hfl2, hfl3, hfl4, hfl5, hfl6, hfl7, hfl8⟩ :=
          isEmpty_fields hemp
        subst hdoc
        exact ⟨fun _ => rfl, fun x hx => (by rw [hfl1] at hx; cases hx),
               fun _ => rfl, fun x hx => (by rw [hfl2] at hx; cases hx),
               fun _ => rfl, fun x hx => (by rw [hfl3] at hx; cases hx),
               fun _ => rfl, fun x hx => (by rw [hfl4] at hx; cases hx),
               fun _ => rfl, fun x hx => (by rw [hfl5] at hx; cases hx),
               fun _ => rfl, fun x hx => (by rw [hfl6] at hx; cases hx),
               fun _ => rfl, fun x hx => (by rw [hfl7] at hx; cases hx)⟩
      · have hne : u.isEmpty = false := by simpa using hemp
        by_cases hdupc : ((u.title.isSome || u.date.isSome) &&
            (findDupOther store event_id (u.title.getD existing.title)
              (u.date.getD existing.date)).isSome) = true
        · exfalso
          simp [update_event, hid, hfind, hne, hdupc, Prod.ext_iff] at hupd
        · have hdupc' : ((u.title.isSome || u.date.isSome) &&
              (findDupOther store event_id (u.title.getD existing.title)
                (u.date.getD existing.date)).isSome) = false := by
            simpa using hdupc
          obtain ⟨l1, l2, heq, h1, h2, hres⟩ :=
            update_event_success_shape store event_id u now existing hu hid
              hfind hne hdupc'
          rw [hres] at hupd
          simp only [Prod.mk.injEq, Except.ok.injEq] at hupd
          obtain ⟨-, hdoc⟩ := hupd
          refine ⟨fun hx => (by rw [← hdoc]; simp [applySet, hx]),
                  fun x hx => (by rw [← hdoc]; simp [applySet, hx]),
                  fun hx => (by rw [← hdoc]; simp [applySet, hx]),
                  fun x hx => (by rw [← hdoc]; simp [applySet, hx]),
                  fun hx => (by rw [← hdoc]; simp [applySet, hx]),
                  fun x hx => (by rw [← hdoc]; simp [applySet, hx]),
                  fun hx => (by rw [← hdoc]; simp [applySet, hx]),
                  fun x hx => (by rw [← hdoc]; simp [applySet, hx]),
                  fun hx => (by rw [← hdoc]; simp [applySet, hx]),
                  fun x hx => (by rw [← hdoc]; simp [applySet, hx]),
                  fun hx => (by rw [← hdoc]; simp [applySet, hx]),
                  fun x hx => (by rw [← hdoc]; simp [applySet, hx]),
                  fun hx => (by rw [← hdoc]; simp [applySet, hx]),
                  fun x hx => (by rw [← hdoc]; simp [applySet, hx])⟩
    · have hid' : objectIdIsValid event_id = false := by simpa using hid
      simp [update_event, hid', Prod.ext_iff] at hupd

/-- C4 witness: a supplied title must satisfy the length rule, and a
capacity-only update leaves the stored title untouched. -/
theorem update_validation_and_frame_witness :
    (1 ≤ "Valid".length ∧ "Valid".length ≤ 200) ∧
    ({ docA with capacity := some 99, updated_at := 5 } : Doc).title =
      docA.title := by
  constructor
  · exact ((update_validation_and_frame.1 0 titleOnlyRaw titleOnlyValid
      (by decide)).1) "Valid" rfl
  · exact ((update_validation_and_frame.2 sampleStore oidA capacityUpdate 5
      docA _ _ (by simp [UniqueIds, sampleStore, docA, docB, oidA, oidB])
      (by decide) rfl).1) rfl

/-- C6: list returns at most limit entities, taken from the
active-only filtered set sorted ascending by date after skipping
(page - 1) * limit documents; the returned total is the count of all
matching documents independent of page and limit; no match yields an
empty list with total 0, not an error. -/
theorem get_events_pagination (store : Store) (page limit : Nat)
    (dfrom dto : Option Int) (tg : Option (List String))
    (hp : 1 ≤ page) (hl1 : 1 ≤ limit) (hl2 : limit ≤ 100) :
    (get_events store page limit dfrom dto tg).1.length ≤ limit ∧
    (get_events store page limit dfrom dto tg).2 =
      (store.filter (matchesQuery dfrom dto tg)).length ∧
    (get_events store page limit dfrom dto tg).1 =
      ((sortByDate (store.filter (matchesQuery dfrom dto tg))).drop
        ((page - 1) * limit)).take limit ∧
    List.Sorted docLE (get_events store page limit dfrom dto tg).1 ∧
    (∀ d ∈ (get_events store page limit dfrom dto tg).1,
       matchesQuery dfrom dto tg d = true ∧ d ∈ store) ∧
    ((∀ d ∈ store, matchesQuery dfrom dto tg d = false) →
       get_events store page limit dfrom dto tg = ([], 0)) := by
  refine ⟨?_, rfl, rfl, ?_, ?_, ?_⟩
  · simp only [get_events]
    exact List.length_take_le _ _
  · have hs : List.Sorted docLE
        (sortByDate (store.filter (matchesQuery dfrom dto tg))) :=
      List.sorted_insertionSort docLE _
    have hsub : List.Sublist
        (((sortByDate (store.filter (matchesQuery dfrom dto tg))).drop
          ((page - 1) * limit)).take limit)
        (sortByDate (store.filter (matchesQuery dfrom dto tg))) :=
      (List.take_sublist _ _).trans (List.drop_sublist _ _)
    exact hs.sublist hsub
  · intro d hd
    exact ⟨(mem_get_events hd).2, (mem_get_events hd).1⟩
  · intro habs
    have hfil : store.filter (matchesQuery dfrom dto tg) = [] :=
      List.filter_eq_nil_iff.mpr (fun a ha => by simp [habs a ha])
    simp [get_events, hfil, sortByDate, List.insertionSort]

/-- C6 witness: a page of limit 5 over the sample store holds at most
5 entities. -/
theorem get_events_pagination_witness :
    (get_events sampleStore 1 5 none none none).1.length ≤ 5 :=
  (get_events_pagination sampleStore 1 5 none none none (by decide)
    (by decide) (by decide)).1

/-- C9: update with an empty payload returns the current stored
entity and leaves the store entirely unchanged, with no updated_at
bump and no write. -/
theorem update_event_empty_noop (store : Store) (event_id : String)
    (now : Int) (existing : Doc)
    (hid : objectIdIsValid event_id = true)
    (hfind : findActive store event_id = some existing) :
    update_event store event_id emptyUpdate now = (store, .ok existing) := by
  simp [update_event, hid, hfind, emptyUpdate, ValidUpdate.isEmpty]

/-- C9 witness: an empty update of docA returns docA and leaves the
sample store untouched. -/
theorem update_event_empty_noop_witness :
    update_event sampleStore oidA emptyUpdate 9 = (sampleStore, .ok docA) :=
  update_event_empty_noop sampleStore oidA 9 docA (by decide) (by decide)

/-- C10: the update payload accepts is_active and a supplied boolean
is written to the stored record; supplying is_active false on an
active event marks it inactive, equivalent to a soft delete bypassing
the delete operation. -/
theorem update_event_is_active_writable (store : Store) (event_id : String)
    (now : Int) (existing : Doc) (b : Bool)
    (hu : UniqueIds store) (hid : objectIdIsValid event_id = true)
    (hfind : findActive store event_id = some existing) :
    ∃ store2,
      update_event store event_id (setActive b) now =
        (store2, .ok { existing with
                         is_active := some b,
                         updated_at := now }) ∧
      { existing with is_active := some b, updated_at := now } ∈ store2 ∧
      (b = false →
        get_event_by_id store2 event_id = .error .notFound) := by
  have happ : applySet (setActive b) now existing =
      { existing with is_active := some b, updated_at := now } := rfl
  obtain ⟨l1, l2, heq, h1, h2, hres⟩ :=
    update_event_success_shape store event_id (setActive b) now existing hu
      hid hfind rfl rfl
  rw [happ] at hres
  refine ⟨l1 ++ { existing with
      is_active := some b,
      updated_at := now } :: l2, hres, by simp, ?_⟩
  intro hb
  subst hb
  have hnone : findActive
      (l1 ++ { existing with
                 is_active := some false,
                 updated_at := now } :: l2) event_id = none := by
    rw [findActive, List.find?_eq_none]
    intro x hx
    rcases List.mem_append.mp hx with h | h
    · simp [beq_eq_false_iff_ne.mpr (h1 x h)]
    · rcases List.mem_cons.mp h with rfl | h
      · simp
      · simp [beq_eq_false_iff_ne.mpr (h2 x h)]
  simp [get_event_by_id, hid, hnone]

/-- C10 witness: supplying is_active false on docA marks it inactive
and the id then resolves to NotFound. -/
theorem update_event_is_active_writable_witness :
    ∃ store2,
      update_event sampleStore oidA (setActive false) 3 =
        (store2, .ok { docA with
                         is_active := some false,
                         updated_at := 3 }) ∧
      get_event_by_id store2 oidA = .error .notFound := by
  obtain ⟨store2, hrun, -, hget⟩ :=
    update_event_is_active_writable sampleStore oidA 3 docA false
      (by simp [UniqueIds, sampleStore, docA, docB, oidA, oidB])
      (by decide) (by decide)
  exact ⟨store2, hrun, hget rfl⟩

end TechEvents
